import Mathlib

/-!
Verification of the crux package-map and filesystem-overlay core.

The definitions below are a shallow embedding of the overlay shims in the
fs-override module (the patched lstat, stat, access, readFile, readdir,
open, stream constructors and module-loader probes) and of the installer
seal logic in lib/installer.js.  The resolver result observed by the shims
is modelled as the four-way classification the shims branch on:
resolved == null (untracked), falsy resolved (missing), resolved.isDir
(dir with child names), resolved.isFile (file entry).  Real-filesystem
primitives captured at patch time are passed to each embedded shim as an
explicit outcome argument, and the side effects a shim performs on the
real filesystem (copyFile, chmod) are recorded in an explicit trace.
-/

namespace Crux

/-- POSIX-style error classes surfaced by the overlay, plus the blob-store
integrity failure class.  Matches the error constructors of the
fs-override module (notFoundError, notDirError, isDirError, accessError). -/
inductive Err where
  | enoent
  | enotdir
  | eisdir
  | eacces
  | eintegrity
deriving DecidableEq, Repr

/-- The errno value each error constructor of the fs-override module sets:
ENOENT is -2, ENOTDIR is -20, EISDIR is -21, EACCES is -13.  The integrity
failure class has no errno in the source. -/
def errnoOf : Err → Option Int
  | .enoent => some (-2)
  | .enotdir => some (-20)
  | .eisdir => some (-21)
  | .eacces => some (-13)
  | .eintegrity => none

/-- Modelled from the spec: an integrity digest is a self-describing value
of the form algorithm plus hash, its equality byte-identical, and it is the
sole identity of a blob.  The ssri hash itself is an external library, so
the hash value is idealised as the hashed bytes themselves, which makes the
digest collision-free by construction. -/
structure Digest where
  algorithm : String
  value : List Nat
deriving DecidableEq, Repr

/-- Modelled from the spec: ssri.fromData computes the integrity digest of
a byte sequence (the source uses sha512). -/
def ssriFromData (bytes : List Nat) : Digest :=
  ⟨"sha512", bytes⟩

/-- Modelled from the spec: ssri.checkData verifies that a byte sequence
hashes to the given digest. -/
def ssriCheckData (bytes : List Nat) (d : Digest) : Bool :=
  decide (ssriFromData bytes = d)

/-- A file entry of the package map: digest, size and mode, as the spec's
data model records for kind = file. -/
structure FileEntry where
  digest : Digest
  size : Nat
  mode : Nat
deriving DecidableEq, Repr

/-- The four-way classification of pkglock.resolve as observed by the
overlay shims: resolved == null, falsy resolved, resolved.isDir with the
child-name keys of resolved.dir, and resolved.isFile with the file entry. -/
inductive Resolution where
  | untracked
  | missing
  | dir (children : List String)
  | file (entry : FileEntry)
deriving DecidableEq, Repr

/-- The part of a pkglock.statSync result the shims consume: the blob's
cache path.  The shims treat a falsy stat as blob-not-found, which the
embedding models by passing an Option of this record. -/
structure StatInfo where
  cachePath : String
deriving DecidableEq, Repr

/-- Modelled from the spec: pkglock.readSync reads the blob bytes of a file
entry via the blob store; it fails NOT_FOUND when the blob is absent and
INTEGRITY when the stored bytes do not hash to the entry's digest
(verification is mandatory on full reads). -/
def pkglock_readSync (entry : FileEntry) (store : Digest → Option (List Nat)) :
    Except Err (List Nat) :=
  match store entry.digest with
  | none => .error .enoent
  | some b =>
    if ssriFromData b = entry.digest then .ok b else .error .eintegrity

/-- Insertion pass of the JS Set-based deduplication: walk the list, skip
an element already seen, otherwise keep it and remember it. -/
def dedupAux (seen : List String) : List String → List String
  | [] => []
  | x :: xs => if x ∈ seen then dedupAux seen xs else x :: dedupAux (x :: seen) xs

/-- Deduplication keeping first occurrences, as the spread of a JS Set
built from the list produces. -/
def dedupFirst (l : List String) : List String :=
  dedupAux [] l

/-- The patched statSync and lstatSync shims: try the real call; propagate
any real error other than ENOENT; on real ENOENT consult the resolver, and
for a falsy resolution (untracked or missing) synthesise ENOENT, otherwise
answer from pkglock.statSync, synthesising ENOENT when that stat is falsy. -/
def statSync_patched {α : Type} (realStat : Except Err α) (res : Resolution)
    (mapStat : Option α) : Except Err α :=
  match realStat with
  | .ok s => .ok s
  | .error e =>
    if e = .enoent then
      match res with
      | .untracked => .error .enoent
      | .missing => .error .enoent
      | _ =>
        match mapStat with
        | some st => .ok st
        | none => .error .enoent
    else .error e

/-- The patched async stat and lstat shims: the callback given to the real
call consults the resolver on ANY real error, with no check of the error
code; a falsy resolution then synthesises ENOENT.  When the map stat is
falsy the callback is first invoked with a null error and an undefined
stat (modelled as ok none), the scheduled ENOENT arriving only afterwards. -/
def stat_patched {α : Type} (realStat : Except Err α) (res : Resolution)
    (mapStat : Option α) : Except Err (Option α) :=
  match realStat with
  | .ok s => .ok (some s)
  | .error _ =>
    match res with
    | .untracked => .error .enoent
    | .missing => .error .enoent
    | _ => .ok mapStat

/-- The patched readdirSync shim: attempt the real listing, swallowing only
a real ENOENT; when the resolution is a dir, append its child names and
deduplicate; otherwise fail ENOENT when the real call also failed, fail
ENOTDIR when the real call succeeded but the resolution is a file, and
return the deduplicated real listing when the resolution is falsy. -/
def readdirSync_patched (realLs : Except Err (List String)) (res : Resolution) :
    Except Err (List String) :=
  match realLs with
  | .error e =>
    if e = .enoent then
      match res with
      | .dir cs => .ok (dedupFirst cs)
      | _ => .error .enoent
    else .error e
  | .ok files =>
    match res with
    | .dir cs => .ok (dedupFirst (files ++ cs))
    | .file _ => .error .enotdir
    | _ => .ok (dedupFirst files)

/-- The patched async readdir shim; same merge as the sync variant, the
real listing being delivered through the callback. -/
def readdir_patched (realLs : Except Err (List String)) (res : Resolution) :
    Except Err (List String) :=
  match realLs with
  | .error e =>
    if e = .enoent then
      match res with
      | .dir cs => .ok (dedupFirst cs)
      | _ => .error .enoent
    else .error e
  | .ok files =>
    match res with
    | .dir cs => .ok (dedupFirst (files ++ cs))
    | .file _ => .error .enotdir
    | _ => .ok (dedupFirst files)

/-- Observable outcome of a patched readFile or readFileSync call:
delegated to the captured original, raw bytes, bytes decoded with an
encoding, or a synthesised failure. -/
inductive ReadOutcome where
  | passthrough
  | bytes (b : List Nat)
  | text (enc : String) (b : List Nat)
  | failed (e : Err)
deriving DecidableEq, Repr

/-- The patched readFileSync shim: null resolution delegates to the
original; a dir fails EISDIR; a falsy resolution fails ENOENT; a file is
read through pkglock.readSync and decoded with the normalised encoding
option when one is given, the real filesystem never being consulted. -/
def readFileSync_patched (res : Resolution) (enc : Option String)
    (store : Digest → Option (List Nat)) : ReadOutcome :=
  match res with
  | .untracked => .passthrough
  | .dir _ => .failed .eisdir
  | .missing => .failed .enoent
  | .file e =>
    match pkglock_readSync e store with
    | .ok b =>
      match enc with
      | some s => .text s b
      | none => .bytes b
    | .error er => .failed er

/-- The patched async readFile shim; after normalising the options it
performs the same dispatch as the sync variant, delivering data or error
through the callback. -/
def readFile_patched (res : Resolution) (enc : Option String)
    (store : Digest → Option (List Nat)) : ReadOutcome :=
  match res with
  | .untracked => .passthrough
  | .dir _ => .failed .eisdir
  | .missing => .failed .enoent
  | .file e =>
    match pkglock_readSync e store with
    | .ok b =>
      match enc with
      | some s => .text s b
      | none => .bytes b
    | .error er => .failed er

/-- The host access-mode constants consumed by the access shims. -/
def F_OK : Nat := 0

/-- Read-permission access bit. -/
def R_OK : Nat := 4

/-- Write-permission access bit. -/
def W_OK : Nat := 2

/-- Execute-permission access bit. -/
def X_OK : Nat := 1

/-- Observable outcome of a patched access or accessSync call: delegated
to the original on the requested path, granted, failed, or delegated to
the real access check on the blob's cache path with the given mode. -/
inductive AccessOutcome where
  | passthrough
  | granted
  | failed (e : Err)
  | delegated (cachePath : String) (mode : Nat)
deriving DecidableEq, Repr

/-- The patched accessSync shim: null resolution delegates to the original;
the mode then defaults to F_OK; a falsy resolution fails ENOENT; a dir is
granted when the mode equals F_OK or has the read bit set and is otherwise
refused EACCES; a file delegates to the real check on the cache path,
failing ENOENT when pkglock.statSync is falsy. -/
def accessSync_patched (res : Resolution) (mode : Option Nat)
    (mapStat : Option StatInfo) : AccessOutcome :=
  match res with
  | .untracked => .passthrough
  | .missing => .failed .enoent
  | .dir _ =>
    let m := mode.getD F_OK
    if m = F_OK ∨ R_OK &&& m ≠ 0 then .granted else .failed .eacces
  | .file _ =>
    match mapStat with
    | none => .failed .enoent
    | some st => .delegated st.cachePath (mode.getD F_OK)

/-- The patched async access shim; after the callback-in-mode-position
normalisation it performs the same dispatch as the sync variant. -/
def access_patched (res : Resolution) (mode : Option Nat)
    (mapStat : Option StatInfo) : AccessOutcome :=
  match res with
  | .untracked => .passthrough
  | .missing => .failed .enoent
  | .dir _ =>
    let m := mode.getD F_OK
    if m = F_OK ∨ R_OK &&& m ≠ 0 then .granted else .failed .eacces
  | .file _ =>
    match mapStat with
    | none => .failed .enoent
    | some st => .delegated st.cachePath (mode.getD F_OK)

/-- Trace of the mutations a shim performs on the real filesystem: the
copyFile calls as source and destination pairs, and the chmod calls as
path and mode pairs, in call order. -/
structure FsTrace where
  copies : List (String × String)
  chmods : List (String × Nat)
deriving DecidableEq, Repr

/-- The empty trace: no copy and no chmod was performed. -/
def noTrace : FsTrace := ⟨[], []⟩

/-- Final action of a patched open or openSync call: the captured original
open invoked on a path with flags, or a synthesised failure. -/
inductive OpenAction where
  | opened (path : String) (flags : String)
  | failed (e : Err)
deriving DecidableEq, Repr

/-- Result of a patched open or openSync call: the real-filesystem
mutation trace together with the final action. -/
structure OpenResult where
  trace : FsTrace
  action : OpenAction
deriving DecidableEq, Repr

/-- The patched openSync shim: null resolution delegates to the original
on the requested path; a falsy resolution fails ENOENT; a dir fails
EISDIR; a file with a falsy verified stat fails ENOENT; with the literal
flags string r the original opens the blob's cache path; with any other
flags the blob is first copied from the cache path to the requested path,
that path is chmodded to 0o755, and the original opens the requested path
with the caller's flags. -/
def openSync_patched (res : Resolution) (mapStat : Option StatInfo)
    (p : String) (flags : String) : OpenResult :=
  match res with
  | .untracked => ⟨noTrace, .opened p flags⟩
  | .missing => ⟨noTrace, .failed .enoent⟩
  | .dir _ => ⟨noTrace, .failed .eisdir⟩
  | .file _ =>
    match mapStat with
    | none => ⟨noTrace, .failed .enoent⟩
    | some st =>
      if flags = "r" then ⟨noTrace, .opened st.cachePath flags⟩
      else ⟨⟨[(st.cachePath, p)], [(p, 0o755)]⟩, .opened p flags⟩

/-- The patched async open shim: the original open is attempted on the
requested path first; its success, and any real error other than ENOENT,
are returned as is; only on real ENOENT does the shim dispatch on the
resolution exactly as the sync variant does. -/
def open_patched (realOpen : Except Err Nat) (res : Resolution)
    (mapStat : Option StatInfo) (p : String) (flags : String) : OpenResult :=
  match realOpen with
  | .ok _ => ⟨noTrace, .opened p flags⟩
  | .error e =>
    if e = .enoent then
      match res with
      | .untracked => ⟨noTrace, .failed .enoent⟩
      | .missing => ⟨noTrace, .failed .enoent⟩
      | .dir _ => ⟨noTrace, .failed .eisdir⟩
      | .file _ =>
        match mapStat with
        | none => ⟨noTrace, .failed .enoent⟩
        | some st =>
          if flags = "r" then ⟨noTrace, .opened st.cachePath flags⟩
          else ⟨⟨[(st.cachePath, p)], [(p, 0o755)]⟩, .opened p flags⟩
    else ⟨noTrace, .failed e⟩

/-- Final action of a patched stream-constructor call: the captured
original constructor invoked on a path, or a synthesised failure. -/
inductive StreamAction where
  | streamed (path : String)
  | failed (e : Err)
deriving DecidableEq, Repr

/-- Result of a patched stream-constructor call: the real-filesystem
mutation trace together with the final action. -/
structure StreamResult where
  trace : FsTrace
  action : StreamAction
deriving DecidableEq, Repr

/-- The patched createReadStream shim: a falsy resolution or a dir
delegates to the original constructor on the requested path, as does a
file whose verified stat is falsy; a file whose options object is present
with flags exactly r streams from the blob's cache path; any other file
request first copies the blob to the requested path, chmods it to 0o755,
and streams the requested path.  The options are modelled as an optional
object holding an optional flags field. -/
def createReadStream_patched (res : Resolution) (mapStat : Option StatInfo)
    (p : String) (optsFlags : Option (Option String)) : StreamResult :=
  match res with
  | .untracked => ⟨noTrace, .streamed p⟩
  | .missing => ⟨noTrace, .streamed p⟩
  | .dir _ => ⟨noTrace, .streamed p⟩
  | .file _ =>
    match mapStat with
    | none => ⟨noTrace, .streamed p⟩
    | some st =>
      if optsFlags = some (some "r") then ⟨noTrace, .streamed st.cachePath⟩
      else ⟨⟨[(st.cachePath, p)], [(p, 0o755)]⟩, .streamed p⟩

/-- The patched createWriteStream shim: a falsy resolution or a dir
delegates to the original constructor on the requested path, as does a
file whose verified stat is falsy; any other file request copies the blob
to the requested path, chmods it to 0o755, and streams the requested
path. -/
def createWriteStream_patched (res : Resolution) (mapStat : Option StatInfo)
    (p : String) : StreamResult :=
  match res with
  | .untracked => ⟨noTrace, .streamed p⟩
  | .missing => ⟨noTrace, .streamed p⟩
  | .dir _ => ⟨noTrace, .streamed p⟩
  | .file _ =>
    match mapStat with
    | none => ⟨noTrace, .streamed p⟩
    | some st => ⟨⟨[(st.cachePath, p)], [(p, 0o755)]⟩, .streamed p⟩

/-- The patched internalModuleStat probe, the path given by its segments:
null resolution delegates to the original probe's value; a file entry
yields 0; a dir entry yields 1; a falsy resolution yields 1 when the
path's basename is node_modules and the ENOENT value -34 otherwise. -/
def internalModuleStat_patched (orig : Int) (res : Resolution)
    (segs : List String) : Int :=
  match res with
  | .untracked => orig
  | .file _ => 0
  | .dir _ => 1
  | .missing => if segs.getLastD "" = "node_modules" then 1 else -34

/-- Observable outcome of the patched internalModuleReadJSON probe:
delegated to the original probe, the undefined value, or the blob bytes
decoded as UTF-8 text. -/
inductive ReadJsonOutcome where
  | passthrough
  | undefinedValue
  | text (b : List Nat)
deriving DecidableEq, Repr

/-- The patched internalModuleReadJSON probe: null resolution delegates to
the original; a falsy resolution or a dir returns undefined; a file is
read through pkglock.readSync inside a try block whose catch swallows any
failure and returns undefined. -/
def internalModuleReadJSON_patched (res : Resolution)
    (store : Digest → Option (List Nat)) : ReadJsonOutcome :=
  match res with
  | .untracked => .passthrough
  | .missing => .undefinedValue
  | .dir _ => .undefinedValue
  | .file e =>
    match pkglock_readSync e store with
    | .ok b => .text b
    | .error _ => .undefinedValue

/-- Contents of the persisted map file: a JSON object whose
lockfile_integrity field holds the seal digest. -/
structure PkgLockHashFile where
  lockfile_integrity : Digest
deriving DecidableEq, Repr

/-- Installer.writeLockHash: persists, at the path obtained by joining the
project root with node_modules and .pkglock-hash, the JSON object whose
lockfile_integrity field is the ssri digest of the serialised lockfile.
The path is modelled by its segments and the serialised lockfile by its
bytes. -/
def writeLockHash (projRoot : List String) (lockBytes : List Nat) :
    (List String) × PkgLockHashFile :=
  (projRoot ++ ["node_modules", ".pkglock-hash"], ⟨ssriFromData lockBytes⟩)

/-- checkPkgLock of the prepare command: verifies the serialised current
lockfile against the lockfile_integrity field of the persisted map file
with ssri.checkData. -/
def checkPkgLock (lockBytes : List Nat) (f : PkgLockHashFile) : Bool :=
  ssriCheckData lockBytes f.lockfile_integrity

/-- The validLockHash flag of Installer after checkLock ran: the
constructor initialises it to false, and checkLock assigns only false (and
only when a persisted hash is present and fails ssri.checkData); no
assignment of true exists. -/
def installer_validLockHash (pkglockHash : Option PkgLockHashFile)
    (lockBytes : List Nat) : Bool :=
  match pkglockHash with
  | some f => if ¬ ssriCheckData lockBytes f.lockfile_integrity then false else false
  | none => false

/-- The regeneration decision of Installer.run: fetchTree, buildTree and
writeLockHash run exactly when validLockHash is false or force is set. -/
def installer_regenerates (pkglockHash : Option PkgLockHashFile)
    (lockBytes : List Nat) (force : Bool) : Bool :=
  !(installer_validLockHash pkglockHash lockBytes) || force

/-- A model real filesystem: each path optionally holds bytes and a mode. -/
def ByteFs : Type := String → Option (List Nat × Nat)

/-- Effect of one fs.copyFile call on the model filesystem: the
destination takes the source's content and mode. -/
def applyCopyFile (fs : ByteFs) (src dst : String) : ByteFs :=
  fun q => if q = dst then fs src else fs q

/-- Effect of one fs.chmod call on the model filesystem: the path's mode
is replaced when the path exists. -/
def applyChmod (fs : ByteFs) (p : String) (m : Nat) : ByteFs :=
  fun q => if q = p then (fs p).map (fun bm => (bm.1, m)) else fs q

/-- Effect of a whole mutation trace on the model filesystem: the copies
are applied in order, then the chmods, matching the call order of the
materialising shims. -/
def applyTrace (fs : ByteFs) (t : FsTrace) : ByteFs :=
  t.chmods.foldl (fun acc pm => applyChmod acc pm.1 pm.2)
    (t.copies.foldl (fun acc sd => applyCopyFile acc sd.1 sd.2) fs)

/-- Membership in the Set-insertion pass: an element is kept exactly when
it occurs in the input and was not already seen. -/
theorem mem_dedupAux (a : String) (l : List String) :
    ∀ seen, (a ∈ dedupAux seen l ↔ a ∈ l ∧ a ∉ seen) := by
  induction l with
  | nil => intro seen; simp [dedupAux]
  | cons x xs ih =>
    intro seen
    by_cases hx : x ∈ seen
    · rw [dedupAux, if_pos hx, ih seen]
      constructor
      · rintro ⟨h1, h2⟩
        exact ⟨List.mem_cons_of_mem _ h1, h2⟩
      · rintro ⟨h1, h2⟩
        rcases List.mem_cons.mp h1 with h | h
        · exact absurd (h ▸ hx) h2
        · exact ⟨h, h2⟩
    · rw [dedupAux, if_neg hx]
      constructor
      · intro h
        rcases List.mem_cons.mp h with h | h
        · subst h
          exact ⟨List.mem_cons_self _ _, hx⟩
        · rcases (ih (x :: seen)).mp h with ⟨h1, h2⟩
          exact ⟨List.mem_cons_of_mem _ h1,
            fun hs => h2 (List.mem_cons_of_mem _ hs)⟩
      · rintro ⟨h1, h2⟩
        rcases List.mem_cons.mp h1 with h | h
        · subst h
          exact List.mem_cons_self _ _
        · by_cases hax : a = x
          · subst hax
            exact List.mem_cons_self _ _
          · refine List.mem_cons_of_mem _ ((ih (x :: seen)).mpr ⟨h, ?_⟩)
            intro hmem
            rcases List.mem_cons.mp hmem with h' | h'
            · exact hax h'
            · exact h2 h'

/-- The Set-insertion pass never keeps an element twice. -/
theorem nodup_dedupAux (l : List String) : ∀ seen, (dedupAux seen l).Nodup := by
  induction l with
  | nil => intro seen; simp [dedupAux]
  | cons x xs ih =>
    intro seen
    by_cases hx : x ∈ seen
    · rw [dedupAux, if_pos hx]
      exact ih seen
    · rw [dedupAux, if_neg hx]
      refine List.nodup_cons.mpr ⟨fun hmem => ?_, ih (x :: seen)⟩
      rcases (mem_dedupAux x xs (x :: seen)).mp hmem with ⟨_, h2⟩
      exact h2 (List.mem_cons_self _ _)

/-- dedupFirst preserves membership. -/
theorem mem_dedupFirst (a : String) (l : List String) :
    a ∈ dedupFirst l ↔ a ∈ l := by
  rw [dedupFirst, mem_dedupAux a l []]
  simp

/-- dedupFirst yields a duplicate-free list. -/
theorem nodup_dedupFirst (l : List String) : (dedupFirst l).Nodup :=
  nodup_dedupAux l []

/-- Claim C1: the overlay is claimed transparent for untracked paths, every
patched primitive failing with the same error as the captured original.
The async stat and lstat shims break this: their callback consults the
resolver on every real error instead of only on ENOENT, so a real EACCES
on an untracked path is replaced by a synthesised ENOENT, while the sync
statSync shim propagates the same real EACCES unchanged. -/
theorem async_stat_swallows_host_error :
    stat_patched (Except.error Err.eacces : Except Err Unit)
      Resolution.untracked none = Except.error Err.enoent
    ∧ statSync_patched (Except.error Err.eacces : Except Err Unit)
        Resolution.untracked none = Except.error Err.eacces
    ∧ Err.enoent ≠ Err.eacces := by
  exact ⟨rfl, rfl, by decide⟩

/-- Claim C3: the patched readdir and readdirSync merge the real listing
with the map dir's child names without duplicates; map children alone are
returned when the real call fails ENOENT on a dir resolution; both failing
yields ENOENT; a real success over a file resolution yields ENOTDIR; and
the async shim computes the same function as the sync one. -/
theorem readdir_merge_contract :
    (∀ l : List String, (dedupFirst l).Nodup ∧ ∀ a, a ∈ dedupFirst l ↔ a ∈ l)
    ∧ (∀ files cs, readdirSync_patched (.ok files) (.dir cs)
        = .ok (dedupFirst (files ++ cs))
        ∧ ∀ a, a ∈ dedupFirst (files ++ cs) ↔ a ∈ files ∨ a ∈ cs)
    ∧ (∀ files, readdirSync_patched (.ok files) .untracked = .ok (dedupFirst files))
    ∧ (∀ files, readdirSync_patched (.ok files) .missing = .ok (dedupFirst files))
    ∧ (∀ files fe, readdirSync_patched (.ok files) (.file fe) = .error .enotdir)
    ∧ (∀ cs, readdirSync_patched (.error .enoent) (.dir cs) = .ok (dedupFirst cs))
    ∧ readdirSync_patched (.error .enoent) .untracked = .error .enoent
    ∧ readdirSync_patched (.error .enoent) .missing = .error .enoent
    ∧ (∀ fe, readdirSync_patched (.error .enoent) (.file fe) = .error .enoent)
    ∧ (∀ realLs res, readdir_patched realLs res = readdirSync_patched realLs res) := by
  refine ⟨fun l => ⟨nodup_dedupFirst l, fun a => mem_dedupFirst a l⟩,
    fun files cs => ⟨rfl, fun a => ?_⟩, fun _ => rfl, fun _ => rfl,
    fun _ _ => rfl, fun _ => rfl, rfl, rfl, fun _ => rfl, fun realLs res => rfl⟩
  rw [mem_dedupFirst a (files ++ cs)]
  exact List.mem_append

/-- Claim C4: the patched readFile and readFileSync fail EISDIR with errno
-21 on a dir resolution, fail ENOENT with errno -2 on a missing resolution,
and on a file resolution return exactly the blob's bytes, decoded with the
requested encoding when one is given; no tracked resolution is delegated
to the real filesystem. -/
theorem readFile_contract :
    (∀ cs enc store, readFileSync_patched (.dir cs) enc store = .failed .eisdir
      ∧ readFile_patched (.dir cs) enc store = .failed .eisdir)
    ∧ errnoOf .eisdir = some (-21)
    ∧ (∀ enc store, readFileSync_patched .missing enc store = .failed .enoent
      ∧ readFile_patched .missing enc store = .failed .enoent)
    ∧ errnoOf .enoent = some (-2)
    ∧ (∀ (e : FileEntry) (store : Digest → Option (List Nat)) (b : List Nat),
        store e.digest = some b → ssriFromData b = e.digest →
          readFileSync_patched (.file e) none store = .bytes b
          ∧ (∀ s, readFileSync_patched (.file e) (some s) store = .text s b)
          ∧ readFile_patched (.file e) none store = .bytes b
          ∧ (∀ s, readFile_patched (.file e) (some s) store = .text s b))
    ∧ (∀ res enc store, res ≠ Resolution.untracked →
        readFileSync_patched res enc store ≠ .passthrough
        ∧ readFile_patched res enc store ≠ .passthrough) := by
  refine ⟨fun _ _ _ => ⟨rfl, rfl⟩, rfl, fun _ _ => ⟨rfl, rfl⟩, rfl,
    fun e store b h1 h2 => ?_, fun res enc store h => ?_⟩
  · refine ⟨?_, fun s => ?_, ?_, fun s => ?_⟩ <;>
      simp [readFileSync_patched, readFile_patched, pkglock_readSync, h1, h2]
  · cases res with
    | untracked => exact absurd rfl h
    | missing => exact ⟨by simp [readFileSync_patched], by simp [readFile_patched]⟩
    | dir cs => exact ⟨by simp [readFileSync_patched], by simp [readFile_patched]⟩
    | file e =>
      constructor
      · cases hr : pkglock_readSync e store with
        | ok b => cases enc <;> simp [readFileSync_patched, hr]
        | error er => simp [readFileSync_patched, hr]
      · cases hr : pkglock_readSync e store with
        | ok b => cases enc <;> simp [readFile_patched, hr]
        | error er => simp [readFile_patched, hr]

/-- Witness for claim C4: a concrete file entry whose blob is present in
the store is read back byte-for-byte, raw and decoded. -/
theorem readFile_contract_witness :
    readFileSync_patched (.file ⟨⟨"sha512", [7]⟩, 1, 420⟩) none
      (fun d => if d = (⟨"sha512", [7]⟩ : Digest) then some [7] else none) = .bytes [7]
    ∧ readFile_patched (.file ⟨⟨"sha512", [7]⟩, 1, 420⟩) (some "utf8")
        (fun d => if d = (⟨"sha512", [7]⟩ : Digest) then some [7] else none)
        = .text "utf8" [7] := by
  have h := readFile_contract.2.2.2.2.1 ⟨⟨"sha512", [7]⟩, 1, 420⟩
    (fun d => if d = (⟨"sha512", [7]⟩ : Digest) then some [7] else none) [7]
    (by decide) (by decide)
  exact ⟨h.1, h.2.2.2 "utf8"⟩

/-- Claim C8: the patched internalModuleStat probe returns 0 on a file
resolution, 1 on a dir resolution, 1 on a missing resolution whose
basename is node_modules, -34 on any other missing resolution, and the
original probe's value on an untracked resolution. -/
theorem internalModuleStat_contract :
    (∀ orig fe segs, internalModuleStat_patched orig (.file fe) segs = 0)
    ∧ (∀ orig cs segs, internalModuleStat_patched orig (.dir cs) segs = 1)
    ∧ (∀ orig segs, (internalModuleStat_patched orig .missing segs = 1
        ↔ segs.getLastD "" = "node_modules"))
    ∧ (∀ orig segs, (internalModuleStat_patched orig .missing segs = -34
        ↔ segs.getLastD "" ≠ "node_modules"))
    ∧ (∀ orig segs, internalModuleStat_patched orig .untracked segs = orig) := by
  refine ⟨fun _ _ _ => rfl, fun _ _ _ => rfl, fun orig segs => ?_,
    fun orig segs => ?_, fun _ _ => rfl⟩
  · by_cases h : segs.getLastD "" = "node_modules" <;>
      simp [internalModuleStat_patched, h]
  · by_cases h : segs.getLastD "" = "node_modules" <;>
      simp [internalModuleStat_patched, h]

/-- Claim C2 counterexample: the flags string rs requests read-only access
(O_RDONLY plus O_SYNC), yet the patched openSync materialises: it copies
the blob to the requested path and opens the requested path instead of
opening the cache path with no write.  Moreover the patched async open
with flags r returns the real descriptor for the requested path whenever
the real open succeeds, again not opening the cache path. -/
theorem openSync_readonly_counterexample :
    openSync_patched (.file ⟨⟨"sha512", [1]⟩, 1, 420⟩) (some ⟨"/cache/x"⟩) "/p" "rs"
      = ⟨⟨[("/cache/x", "/p")], [("/p", 0o755)]⟩, .opened "/p" "rs"⟩
    ∧ (openSync_patched (.file ⟨⟨"sha512", [1]⟩, 1, 420⟩)
        (some ⟨"/cache/x"⟩) "/p" "rs").trace.copies ≠ []
    ∧ open_patched (.ok 3) (.file ⟨⟨"sha512", [1]⟩, 1, 420⟩)
        (some ⟨"/cache/x"⟩) "/p" "r" = ⟨noTrace, .opened "/p" "r"⟩
    ∧ OpenAction.opened "/p" "r" ≠ OpenAction.opened "/cache/x" "r" := by decide

/-- Claim C2 (amended): for a path resolving to File with an available
verified stat, openSync with the literal flags string r opens the blob's
cache path and performs no mutation of the real filesystem; with any other
flags (other read-only spellings included) it copies the blob from the
cache path to the requested path, chmods that path to 0o755 and opens the
requested path with the caller's flags, so that afterwards the requested
path holds the blob's bytes with mode 0o755 and every other path is
untouched; the async open first attempts the real open, keeps a real
success or a real non-ENOENT error, and applies the same split only on a
real ENOENT. -/
theorem open_materialise_contract (fe : FileEntry) (st : StatInfo)
    (p flags : String) :
    (flags = "r" →
      openSync_patched (.file fe) (some st) p flags
        = ⟨noTrace, .opened st.cachePath flags⟩)
    ∧ (flags ≠ "r" →
      (openSync_patched (.file fe) (some st) p flags).action = .opened p flags
      ∧ ∀ (fs : ByteFs) (q : String),
          applyTrace fs (openSync_patched (.file fe) (some st) p flags).trace q
            = if q = p then (fs st.cachePath).map (fun bm => (bm.1, 0o755))
              else fs q)
    ∧ (∀ (fs : ByteFs) (q : String), applyTrace fs noTrace q = fs q)
    ∧ (∀ fd : Nat, open_patched (.ok fd) (.file fe) (some st) p flags
        = ⟨noTrace, .opened p flags⟩)
    ∧ open_patched (.error .enoent) (.file fe) (some st) p flags
        = openSync_patched (.file fe) (some st) p flags
    ∧ (∀ e : Err, e ≠ .enoent →
        open_patched (.error e) (.file fe) (some st) p flags
          = ⟨noTrace, .failed e⟩) := by
  refine ⟨fun h => ?_, fun h => ⟨?_, fun fs q => ?_⟩, fun fs q => ?_,
    fun fd => rfl, ?_, fun e he => ?_⟩
  · subst h
    simp [openSync_patched]
  · simp [openSync_patched, h]
  · simp only [openSync_patched, h, if_neg, ite_false]
    by_cases hq : q = p <;>
      simp [applyTrace, applyChmod, applyCopyFile, hq]
  · simp [applyTrace, noTrace]
  · simp [open_patched, openSync_patched]
  · simp [open_patched, he]

/-- Witness for claim C2 (amended): a concrete read-only open goes to the
cache path, and a concrete write open lands on the requested path. -/
theorem open_materialise_contract_witness :
    openSync_patched (.file ⟨⟨"sha512", [2]⟩, 1, 420⟩) (some ⟨"/c"⟩) "/q" "r"
      = ⟨noTrace, .opened "/c" "r"⟩
    ∧ (openSync_patched (.file ⟨⟨"sha512", [2]⟩, 1, 420⟩)
        (some ⟨"/c"⟩) "/q" "w").action = .opened "/q" "w" := by
  have h1 := open_materialise_contract ⟨⟨"sha512", [2]⟩, 1, 420⟩ ⟨"/c"⟩ "/q" "r"
  have h2 := open_materialise_contract ⟨⟨"sha512", [2]⟩, 1, 420⟩ ⟨"/c"⟩ "/q" "w"
  exact ⟨h1.1 rfl, (h2.2.1 (by decide)).1⟩

/-- Claim C5: persisting the map writes node_modules/.pkglock-hash under
the project root, a JSON object whose lockfile_integrity field is the
integrity digest of the serialised lockfile; the seal just persisted for a
lockfile verifies against that lockfile, and fails against any lockfile
whose serialisation differs. -/
theorem seal_roundtrip (projRoot : List String) (l : List Nat) :
    (writeLockHash projRoot l).1 = projRoot ++ ["node_modules", ".pkglock-hash"]
    ∧ (writeLockHash projRoot l).2.lockfile_integrity = ssriFromData l
    ∧ checkPkgLock l (writeLockHash projRoot l).2 = true
    ∧ ∀ l' : List Nat, l' ≠ l →
        checkPkgLock l' (writeLockHash projRoot l).2 = false := by
  refine ⟨rfl, rfl, by simp [checkPkgLock, ssriCheckData, writeLockHash],
    fun l' h => ?_⟩
  simp [checkPkgLock, ssriCheckData, writeLockHash, ssriFromData]
  exact h

/-- Witness for claim C5: a concrete seal verifies against the bytes it
was computed over and fails against bytes differing in one position. -/
theorem seal_roundtrip_witness :
    checkPkgLock [1] (writeLockHash ["proj"] [1]).2 = true
    ∧ checkPkgLock [2] (writeLockHash ["proj"] [1]).2 = false :=
  ⟨(seal_roundtrip ["proj"] [1]).2.2.1,
    (seal_roundtrip ["proj"] [1]).2.2.2 [2] (by decide)⟩

/-- Claim C6: Installer.run is claimed to skip regeneration when the
persisted seal verifies and force is unset, but validLockHash is
initialised to false and checkLock only ever assigns false again, so the
regeneration branch is taken on every run: even a persisted hash that
passes ssri.checkData against the current lockfile, with force unset,
still regenerates, and the skip branch is unreachable. -/
theorem installer_always_regenerates :
    (∀ h l f, installer_regenerates h l f = true)
    ∧ ssriCheckData [1] (ssriFromData [1]) = true
    ∧ installer_regenerates (some ⟨ssriFromData [1]⟩) [1] false = true := by
  refine ⟨fun h l f => ?_, by decide, by decide⟩
  cases h with
  | none => simp [installer_regenerates, installer_validLockHash]
  | some f' => simp [installer_regenerates, installer_validLockHash]

/-- Claim C7 counterexample: an access mode with both the read and the
write bit set requests write permission, yet the patched access and
accessSync grant it on a dir resolution instead of failing EACCES,
because the shims accept any mode whose read bit is set. -/
theorem access_dir_write_mode_counterexample :
    W_OK &&& (R_OK ||| W_OK) ≠ 0
    ∧ accessSync_patched (.dir []) (some (R_OK ||| W_OK)) none = .granted
    ∧ access_patched (.dir []) (some (R_OK ||| W_OK)) none = .granted
    ∧ AccessOutcome.granted ≠ .failed .eacces := by decide

/-- Claim C7 (amended): the patched access and accessSync pass an
untracked resolution through, fail ENOENT with errno -2 on a missing
resolution, grant a dir resolution exactly when the defaulted mode is
F_OK or has the read bit set and fail EACCES with errno -13 exactly
otherwise, and on a file resolution delegate to the real access check on
the blob's cache path, failing ENOENT when the map stat is falsy. -/
theorem access_contract_amended :
    (∀ m ms, accessSync_patched .untracked m ms = .passthrough)
    ∧ (∀ m ms, accessSync_patched .missing m ms = .failed .enoent)
    ∧ (∀ cs m ms, (accessSync_patched (.dir cs) (some m) ms = .granted
        ↔ (m = F_OK ∨ R_OK &&& m ≠ 0)))
    ∧ (∀ cs m ms, (accessSync_patched (.dir cs) (some m) ms = .failed .eacces
        ↔ ¬(m = F_OK ∨ R_OK &&& m ≠ 0)))
    ∧ (∀ cs ms, accessSync_patched (.dir cs) none ms = .granted)
    ∧ (∀ fe m st, accessSync_patched (.file fe) m (some st)
        = .delegated st.cachePath (m.getD F_OK))
    ∧ (∀ fe m, accessSync_patched (.file fe) m none = .failed .enoent)
    ∧ errnoOf .eacces = some (-13)
    ∧ errnoOf .enoent = some (-2)
    ∧ (∀ res m ms, access_patched res m ms = accessSync_patched res m ms) := by
  refine ⟨fun _ _ => rfl, fun _ _ => rfl, fun cs m ms => ?_, fun cs m ms => ?_,
    fun cs ms => ?_, fun _ _ _ => rfl, fun _ _ => rfl, rfl, rfl,
    fun _ _ _ => rfl⟩
  · by_cases h : (m = F_OK ∨ R_OK &&& m ≠ 0) <;>
      simp [accessSync_patched, h]
  · by_cases h : (m = F_OK ∨ R_OK &&& m ≠ 0) <;>
      simp [accessSync_patched, h]
  · simp [accessSync_patched, F_OK]

/-- Claim C9 counterexample: the patched createReadStream does not follow
the open contract on dir and missing resolutions: on a dir resolution it
delegates to the real constructor on the requested path instead of failing
EISDIR, and on a missing resolution it also delegates instead of failing
ENOENT; moreover a read request with no options object materialises the
blob instead of streaming from the cache path. -/
theorem createReadStream_dir_counterexample :
    createReadStream_patched (.dir ["index.js"]) none "/d" none
      = ⟨noTrace, .streamed "/d"⟩
    ∧ StreamAction.streamed "/d" ≠ .failed .eisdir
    ∧ createReadStream_patched .missing none "/m" none = ⟨noTrace, .streamed "/m"⟩
    ∧ StreamAction.streamed "/m" ≠ .failed .enoent
    ∧ (createReadStream_patched (.file ⟨⟨"sha512", [4]⟩, 1, 420⟩)
        (some ⟨"/cache/y"⟩) "/f" none).trace.copies ≠ [] := by decide

/-- Claim C9 (amended): the patched stream constructors pass untracked,
missing and dir resolutions through to the real constructor on the
requested path, synthesising no error, and do the same for a file
resolution whose verified stat is falsy; for a file resolution with a
stat, createReadStream streams from the blob's cache path exactly when an
options object is present with flags the literal string r, and otherwise
(a missing options object included) copies the blob to the requested
path, chmods it to 0o755 and streams the requested path, which is also
what createWriteStream always does there; the materialisation leaves the
requested path holding the blob's bytes with mode 0o755 and every other
path untouched. -/
theorem stream_contract_amended (fe : FileEntry) (st : StatInfo) (p : String) :
    (∀ ms optsFlags, createReadStream_patched .untracked ms p optsFlags
        = ⟨noTrace, .streamed p⟩)
    ∧ (∀ ms optsFlags, createReadStream_patched .missing ms p optsFlags
        = ⟨noTrace, .streamed p⟩)
    ∧ (∀ cs ms optsFlags, createReadStream_patched (.dir cs) ms p optsFlags
        = ⟨noTrace, .streamed p⟩)
    ∧ (∀ optsFlags, createReadStream_patched (.file fe) none p optsFlags
        = ⟨noTrace, .streamed p⟩)
    ∧ createReadStream_patched (.file fe) (some st) p (some (some "r"))
        = ⟨noTrace, .streamed st.cachePath⟩
    ∧ (∀ optsFlags, optsFlags ≠ some (some "r") →
        createReadStream_patched (.file fe) (some st) p optsFlags
          = ⟨⟨[(st.cachePath, p)], [(p, 0o755)]⟩, .streamed p⟩)
    ∧ createWriteStream_patched (.file fe) (some st) p
        = ⟨⟨[(st.cachePath, p)], [(p, 0o755)]⟩, .streamed p⟩
    ∧ (∀ ms, createWriteStream_patched .untracked ms p = ⟨noTrace, .streamed p⟩
        ∧ createWriteStream_patched .missing ms p = ⟨noTrace, .streamed p⟩
        ∧ ∀ cs, createWriteStream_patched (.dir cs) ms p = ⟨noTrace, .streamed p⟩)
    ∧ createWriteStream_patched (.file fe) none p = ⟨noTrace, .streamed p⟩
    ∧ (∀ (fs : ByteFs) (q : String),
        applyTrace fs (⟨[(st.cachePath, p)], [(p, 0o755)]⟩ : FsTrace) q
          = if q = p then (fs st.cachePath).map (fun bm => (bm.1, 0o755))
            else fs q) := by
  refine ⟨fun _ _ => rfl, fun _ _ => rfl, fun _ _ _ => rfl, fun _ => rfl, ?_,
    fun optsFlags h => ?_, rfl, fun ms => ⟨rfl, rfl, fun _ => rfl⟩, rfl,
    fun fs q => ?_⟩
  · simp [createReadStream_patched]
  · simp [createReadStream_patched, h]
  · by_cases hq : q = p <;>
      simp [applyTrace, applyChmod, applyCopyFile, hq]

/-- Witness for claim C9 (amended): a concrete read stream with no options
object materialises the blob at the requested path. -/
theorem stream_contract_amended_witness :
    createReadStream_patched (.file ⟨⟨"sha512", [3]⟩, 1, 420⟩)
      (some ⟨"/cs"⟩) "/sp" none
      = ⟨⟨[("/cs", "/sp")], [("/sp", 0o755)]⟩, .streamed "/sp"⟩ :=
  (stream_contract_amended ⟨⟨"sha512", [3]⟩, 1, 420⟩ ⟨"/cs"⟩
    "/sp").2.2.2.2.2.1 none (by decide)

/-- Claim C10: the patched internalModuleReadJSON probe delegates to the
original probe on an untracked resolution, returns undefined on missing
and dir resolutions, returns the blob decoded as UTF-8 on a file
resolution whose blob is present and verifies, returns undefined when the
blob is absent or fails the integrity check, and never surfaces a failure
for any tracked resolution. -/
theorem internalModuleReadJSON_contract :
    (∀ store, internalModuleReadJSON_patched .untracked store = .passthrough)
    ∧ (∀ store, internalModuleReadJSON_patched .missing store = .undefinedValue)
    ∧ (∀ cs store, internalModuleReadJSON_patched (.dir cs) store = .undefinedValue)
    ∧ (∀ (e : FileEntry) (store : Digest → Option (List Nat)) (b : List Nat),
        store e.digest = some b → ssriFromData b = e.digest →
          internalModuleReadJSON_patched (.file e) store = .text b)
    ∧ (∀ (e : FileEntry) (store : Digest → Option (List Nat)),
        store e.digest = none →
          internalModuleReadJSON_patched (.file e) store = .undefinedValue)
    ∧ (∀ (e : FileEntry) (store : Digest → Option (List Nat)) (b : List Nat),
        store e.digest = some b → ssriFromData b ≠ e.digest →
          internalModuleReadJSON_patched (.file e) store = .undefinedValue)
    ∧ (∀ res store, res ≠ Resolution.untracked →
        internalModuleReadJSON_patched res store = .undefinedValue
        ∨ ∃ b, internalModuleReadJSON_patched res store = .text b) := by
  refine ⟨fun _ => rfl, fun _ => rfl, fun _ _ => rfl,
    fun e store b h1 h2 => ?_, fun e store h1 => ?_,
    fun e store b h1 h2 => ?_, fun res store h => ?_⟩
  · simp [internalModuleReadJSON_patched, pkglock_readSync, h1, h2]
  · simp [internalModuleReadJSON_patched, pkglock_readSync, h1]
  · simp [internalModuleReadJSON_patched, pkglock_readSync, h1, h2]
  · cases res with
    | untracked => exact absurd rfl h
    | missing => exact Or.inl rfl
    | dir cs => exact Or.inl rfl
    | file e =>
      cases hr : pkglock_readSync e store with
      | ok b =>
        exact Or.inr ⟨b, by simp [internalModuleReadJSON_patched, hr]⟩
      | error er =>
        exact Or.inl (by simp [internalModuleReadJSON_patched, hr])

/-- Witness for claim C10: a concrete file entry with a present verifying
blob decodes to its bytes, and one whose blob is absent yields undefined. -/
theorem internalModuleReadJSON_contract_witness :
    internalModuleReadJSON_patched (.file ⟨⟨"sha512", [8]⟩, 1, 420⟩)
      (fun d => if d = (⟨"sha512", [8]⟩ : Digest) then some [8] else none)
      = .text [8]
    ∧ internalModuleReadJSON_patched (.file ⟨⟨"sha512", [9]⟩, 1, 420⟩)
        (fun _ => none) = .undefinedValue :=
  ⟨internalModuleReadJSON_contract.2.2.2.1 ⟨⟨"sha512", [8]⟩, 1, 420⟩
      (fun d => if d = (⟨"sha512", [8]⟩ : Digest) then some [8] else none)
      [8] (by decide) (by decide),
    internalModuleReadJSON_contract.2.2.2.2.1 ⟨⟨"sha512", [9]⟩, 1, 420⟩
      (fun _ => none) rfl⟩

end Crux
